import Mathlib

/-!
Verification of the routerx HTTP routing layer.

The Go package routerx wraps an http.ServeMux with middleware chains and
prefix scopes.  This file gives a shallow embedding of the package and
settles the specification claims against it.

Modelling conventions:
- A Go http.Handler takes a ResponseWriter and a Request; its observable
  behaviour is modelled as a transformer of an event log, so that the
  order in which middleware run is visible in the result.
- The single http.ServeMux shared by Router, RouteGroup and PathBuilder
  is modelled by explicit state passing: every registering operation takes
  the current mux and returns the new one, and a mux method that panics in
  Go returns none here.
- Go strings are sequences of characters; the string helpers of the
  package are embedded through the character list underlying a String.
- Go slices of middleware are modelled as Lean lists.  copyMiddlewares in
  the source exists to give slices value semantics (so that a child scope
  holds a snapshot of the parent chain); Lean lists have value semantics
  already, and the function is embedded faithfully all the same.
-/

/-- An HTTP request, reduced to the data the router consults: the method
and the path of the request line. -/
structure Request where
  method : String
  path : String

/-- Embedding of http.Handler: the observable effect of running a handler
on a request is modelled as appending events to a log. -/
abbrev Handler := Request → List String → List String

/-- Embedding of the source type Middleware, a function from http.Handler
to http.Handler. -/
abbrev Middleware := Handler → Handler

/-- A middleware that records one event before and one event after the
inner handler runs, the shape used by the specification scenario with
events such as A-in and A-out. -/
def logMW (pre post : String) : Middleware :=
  fun next req log => next req (log ++ [pre]) ++ [post]

/-- A base handler that records a single event when it runs. -/
def emitHandler (ev : String) : Handler :=
  fun _ log => log ++ [ev]

/-- The loop body of applyMiddlewares: the Go loop walks the middleware
slice from the last index down to index 0, replacing the handler by
middlewares[index](handler) at each step.  This function consumes the
middleware list front to back, so applyMiddlewares feeds it the reversed
slice. -/
def applyMWLoop : Handler → List Middleware → Handler
  | handler, [] => handler
  | handler, m :: rest => applyMWLoop (m handler) rest

/-- Embedding of applyMiddlewares from the source: if the slice is empty
the handler is returned unchanged, otherwise the loop applies the
middlewares from the last index down to index 0. -/
def applyMiddlewares (handler : Handler) (middlewares : List Middleware) : Handler :=
  if middlewares.length = 0 then handler
  else applyMWLoop handler middlewares.reverse

/-- Spec-side definition (for the composition claim): the nested
application m0 (m1 (... (m_last handler))), written exactly as the
specification describes the composed handler. -/
def nestedWrap : List Middleware → Handler → Handler
  | [], handler => handler
  | m :: rest, handler => m (nestedWrap rest handler)

/-- Embedding of copyMiddlewares from the source: nil for an empty slice,
otherwise a copy of the slice with the same elements. -/
def copyMiddlewares (middlewares : List Middleware) : List Middleware :=
  if middlewares.length = 0 then []
  else middlewares

/-- Removal of every trailing '/' character, the embedding of
strings.TrimRight(path, "/") on the character list of the path. -/
def trimRightSlashes (cs : List Char) : List Char :=
  (cs.reverse.dropWhile (fun c => c = '/')).reverse

/-- Embedding of cleanPath on the character list of the path: the empty
path and the root path map to the root path; otherwise a leading slash is
prepended when the path does not already start with one (the
strings.HasPrefix test of the source), and every trailing slash is
removed. -/
def cleanPathList (cs : List Char) : List Char :=
  if cs = [] ∨ cs = ['/'] then ['/']
  else if cs.head? = some '/' then trimRightSlashes cs
  else trimRightSlashes ('/' :: cs)

/-- Embedding of cleanPath from the source, on String. -/
def cleanPath (path : String) : String :=
  String.mk (cleanPathList path.data)

/-- Embedding of joinPath from the source: an empty or root first
argument yields cleanPath of the second, otherwise the cleaned pieces are
concatenated. -/
def joinPath (pfx : String) (path : String) : String :=
  if pfx = "" ∨ pfx = "/" then cleanPath path
  else cleanPath pfx ++ cleanPath path

/-- Modelled from the spec: the Pattern Matcher collaborator
(http.ServeMux, outside this repository) holds the installed routes as
pattern-handler pairs in registration order. -/
structure ServeMux where
  routes : List (String × Handler)

/-- The mux of a freshly constructed Router, with no route installed. -/
def newMux : ServeMux := { routes := [] }

/-- Modelled from the spec: registration in the Pattern Matcher fails
fatally on a duplicate pattern; the fatal outcome (a Go panic) is the
none result, and a successful registration appends the route. -/
def ServeMux.Handle (mux : ServeMux) (pattern : String) (handler : Handler) :
    Option ServeMux :=
  if mux.routes.any (fun rt => rt.1 = pattern) then none
  else some { routes := mux.routes ++ [(pattern, handler)] }

/-- Modelled from the spec: dispatch resolves a request to the handler
installed under the method and path of the request, or to none when no
route matches.  Wildcard patterns are out of scope, so the lookup is the
exact-match fragment of the collaborator. -/
def ServeMux.dispatch (mux : ServeMux) (method : String) (path : String) :
    Option Handler :=
  (mux.routes.find? (fun rt => rt.1 = method ++ " " ++ path)).map (fun rt => rt.2)

/-- Embedding of the Router struct; the shared mux pointer is passed
explicitly to the operations instead of being stored. -/
structure Router where
  middlewares : List Middleware

/-- Embedding of New from the source: a Router with a fresh mux (newMux)
and a nil middleware slice. -/
def Router.New : Router := { middlewares := [] }

/-- Embedding of Router.Use: appends the given middlewares to the router
chain; the Go method mutates the router and returns it, modelled by
returning the updated value. -/
def Router.Use (router : Router) (middlewares : List Middleware) : Router :=
  { router with middlewares := router.middlewares ++ middlewares }

/-- Embedding of the RouteGroup struct; the field pfx is the field named
p-r-e-f-i-x in the source (that spelling is unavailable here). -/
structure RouteGroup where
  pfx : String
  middlewares : List Middleware

/-- Embedding of the PathBuilder struct. -/
structure PathBuilder where
  basePath : String
  middlewares : List Middleware

/-- Embedding of Router.Group: the child group cleans the given path as
its own path and copies the router chain. -/
def Router.Group (router : Router) (pfx : String) : RouteGroup :=
  { pfx := cleanPath pfx
    middlewares := copyMiddlewares router.middlewares }

/-- Embedding of Router.Path: the builder is bound to the cleaned path
and copies the router chain. -/
def Router.Path (router : Router) (path : String) : PathBuilder :=
  { basePath := cleanPath path
    middlewares := copyMiddlewares router.middlewares }

/-- Embedding of the private Router.handle: builds the pattern from the
method and the path, wraps the handler in the router chain and installs
it into the mux. -/
def Router.handle (router : Router) (mux : ServeMux) (method : String)
    (path : String) (handler : Handler) : Option ServeMux :=
  ServeMux.Handle mux (method ++ " " ++ path)
    (applyMiddlewares handler router.middlewares)

/-- Embedding of Router.Get: registers under method GET at the cleaned
path with the router chain. -/
def Router.Get (router : Router) (mux : ServeMux) (path : String)
    (handler : Handler) : Option ServeMux :=
  Router.handle router mux "GET" (cleanPath path) handler

/-- Embedding of Router.Post. -/
def Router.Post (router : Router) (mux : ServeMux) (path : String)
    (handler : Handler) : Option ServeMux :=
  Router.handle router mux "POST" (cleanPath path) handler

/-- Embedding of RouteGroup.Use: appends to the group chain. -/
def RouteGroup.Use (group : RouteGroup) (middlewares : List Middleware) :
    RouteGroup :=
  { group with middlewares := group.middlewares ++ middlewares }

/-- Embedding of RouteGroup.Group: the nested group joins the parent path
with the given one and copies the parent chain. -/
def RouteGroup.Group (group : RouteGroup) (pfx : String) : RouteGroup :=
  { pfx := joinPath group.pfx pfx
    middlewares := copyMiddlewares group.middlewares }

/-- Embedding of RouteGroup.Path: the builder is bound to the join of the
group path and the given path, and copies the group chain. -/
def RouteGroup.Path (group : RouteGroup) (path : String) : PathBuilder :=
  { basePath := joinPath group.pfx path
    middlewares := copyMiddlewares group.middlewares }

/-- Embedding of the private RouteGroup.handle: joins the group path with
the relative path, builds the pattern, wraps the handler in the group
chain and installs it. -/
def RouteGroup.handle (group : RouteGroup) (mux : ServeMux) (method : String)
    (path : String) (handler : Handler) : Option ServeMux :=
  ServeMux.Handle mux (method ++ " " ++ joinPath group.pfx path)
    (applyMiddlewares handler group.middlewares)

/-- Embedding of RouteGroup.Get. -/
def RouteGroup.Get (group : RouteGroup) (mux : ServeMux) (path : String)
    (handler : Handler) : Option ServeMux :=
  RouteGroup.handle group mux "GET" path handler

/-- Embedding of the private PathBuilder.register: builds the pattern
from the method and the bound base path, wraps the handler in the builder
chain and installs it. -/
def PathBuilder.register (builder : PathBuilder) (mux : ServeMux)
    (method : String) (handler : Handler) : Option ServeMux :=
  ServeMux.Handle mux (method ++ " " ++ builder.basePath)
    (applyMiddlewares handler builder.middlewares)

/-- Embedding of PathBuilder.Get: registers under GET and returns the
builder itself (the Go method returns the receiver for chaining), paired
with the updated mux. -/
def PathBuilder.Get (builder : PathBuilder) (mux : ServeMux)
    (handler : Handler) : PathBuilder × Option ServeMux :=
  (builder, PathBuilder.register builder mux "GET" handler)

/-- Embedding of PathBuilder.Post. -/
def PathBuilder.Post (builder : PathBuilder) (mux : ServeMux)
    (handler : Handler) : PathBuilder × Option ServeMux :=
  (builder, PathBuilder.register builder mux "POST" handler)

lemma applyMWLoop_append_single (xs : List Middleware) (m : Middleware)
    (handler : Handler) :
    applyMWLoop handler (xs ++ [m]) = m (applyMWLoop handler xs) := by
  induction xs generalizing handler with
  | nil => rfl
  | cons x xs ih => simpa [applyMWLoop] using ih (x handler)

lemma applyMiddlewares_eq_nestedWrap (middlewares : List Middleware)
    (handler : Handler) :
    applyMiddlewares handler middlewares = nestedWrap middlewares handler := by
  induction middlewares with
  | nil => rfl
  | cons m rest ih =>
    have hloop : applyMWLoop handler rest.reverse = nestedWrap rest handler := by
      cases rest with
      | nil => rfl
      | cons r rs => simpa [applyMiddlewares] using ih
    simp [applyMiddlewares, nestedWrap, applyMWLoop_append_single, hloop]

lemma copyMiddlewares_eq (middlewares : List Middleware) :
    copyMiddlewares middlewares = middlewares := by
  cases middlewares with
  | nil => rfl
  | cons m rest => simp [copyMiddlewares]

lemma nestedWrap_logMW (names : List (String × String)) (ev : String)
    (req : Request) (log : List String) :
    nestedWrap (names.map fun pq => logMW pq.1 pq.2) (emitHandler ev) req log
      = log ++ names.map Prod.fst ++ [ev] ++ (names.map Prod.snd).reverse := by
  induction names generalizing log with
  | nil => simp [nestedWrap, emitHandler]
  | cons pq rest ih =>
    simp [nestedWrap, logMW, ih (log ++ [pq.1])]

/-- C1: applyMiddlewares with handler h and middleware list [m0, ..., mn-1]
equals the nested application m0 (m1 (... (mn-1 h))), the first middleware
of the list being the outermost wrapper; and invoking the composed handler
runs the pre hooks in list order, then the handler, then the post hooks in
the reverse order. -/
theorem middleware_composition_order (handler : Handler)
    (middlewares : List Middleware) (names : List (String × String))
    (ev : String) (req : Request) (log : List String) :
    applyMiddlewares handler middlewares = nestedWrap middlewares handler ∧
    applyMiddlewares (emitHandler ev) (names.map fun pq => logMW pq.1 pq.2) req log
      = log ++ names.map Prod.fst ++ [ev] ++ (names.map Prod.snd).reverse := by
  refine ⟨applyMiddlewares_eq_nestedWrap middlewares handler, ?_⟩
  rw [applyMiddlewares_eq_nestedWrap]
  exact nestedWrap_logMW names ev req log

lemma trimRightSlashes_replicate (n : Nat) :
    trimRightSlashes (List.replicate n '/') = [] := by
  simp only [trimRightSlashes, List.reverse_replicate, List.reverse_eq_nil_iff,
    List.dropWhile_eq_nil_iff, List.mem_replicate]
  rintro x ⟨-, rfl⟩
  simp

lemma replicate_slash_ne_nil (n : Nat) : List.replicate (n + 2) '/' ≠ [] := by
  intro h; apply_fun List.length at h; simp at h

lemma replicate_slash_ne_root (n : Nat) : List.replicate (n + 2) '/' ≠ ['/'] := by
  intro h; apply_fun List.length at h; simp at h

lemma cleanPath_replicate_slash (n : Nat) :
    cleanPath (String.mk (List.replicate (n + 2) '/')) = "" := by
  have hhead : (List.replicate (n + 2) '/').head? = some '/' := by
    simp [List.replicate_succ]
  simp [cleanPath, cleanPathList, replicate_slash_ne_nil n,
    replicate_slash_ne_root n, hhead, trimRightSlashes_replicate]

lemma mk_replicate_slash_ne (n : Nat) :
    ¬ (String.mk (List.replicate (n + 2) '/') = "" ∨
       String.mk (List.replicate (n + 2) '/') = "/") := by
  rintro (h | h)
  · exact replicate_slash_ne_nil n (congrArg String.data h)
  · exact replicate_slash_ne_root n (congrArg String.data h)

/-- C10: a path of two or more slashes and nothing else is neither the
empty path nor the root path, yet cleanPath maps it to the empty string,
an output with no leading slash; joinPath with such a path as the first
argument therefore takes the concatenation branch, not the branch for the
empty or root path. -/
theorem cleanPath_slashes_only_edge (n : Nat) (path : String) :
    cleanPath (String.mk (List.replicate (n + 2) '/')) = "" ∧
    ¬ (String.mk (List.replicate (n + 2) '/') = "" ∨
       String.mk (List.replicate (n + 2) '/') = "/") ∧
    joinPath (String.mk (List.replicate (n + 2) '/')) path
      = cleanPath (String.mk (List.replicate (n + 2) '/')) ++ cleanPath path := by
  refine ⟨cleanPath_replicate_slash n, mk_replicate_slash_ne n, ?_⟩
  rw [joinPath, if_neg (mk_replicate_slash_ne n)]

/-- C5: the four cleanPath test vectors of the specification. -/
theorem cleanPath_test_vectors :
    cleanPath "" = "/" ∧ cleanPath "/" = "/" ∧
    cleanPath "foo/" = "/foo" ∧ cleanPath "/foo/bar/" = "/foo/bar" := by
  decide

/-- C3 counterexample: joinPath of "/api" and the empty path is "/api/",
not "/api" as the claim states, because cleanPath of the empty path is
"/" and the code concatenates it to the cleaned first argument. -/
theorem joinPath_empty_path_counterexample :
    ¬ joinPath "/api" "" = "/api" := by decide

/-- C3 amended: join of "/api" and "/v1" is "/api/v1"; join of "/" and
"/v1" is "/v1"; join of "/api" and the empty path is "/api/"; and in
general joinPath returns cleanPath of the second argument when the first
is empty or the root, and otherwise the concatenation of the two cleaned
arguments. -/
theorem joinPath_vectors (pfx path : String) :
    joinPath "/api" "/v1" = "/api/v1" ∧ joinPath "/" "/v1" = "/v1" ∧
    joinPath "/api" "" = "/api/" ∧
    joinPath pfx path
      = if pfx = "" ∨ pfx = "/" then cleanPath path
        else cleanPath pfx ++ cleanPath path :=
  ⟨by decide, by decide, by decide, rfl⟩

/-- C4: evaluation of cleanPath at the failing input "//": the input is
neither empty nor the root path, yet the result is the empty string,
which does not start with a leading slash, contrary to the claim and to
the documentation comment of the source function. -/
theorem cleanPath_all_slashes_eval :
    cleanPath "//" = "" ∧ ¬ (("//" : String) = "" ∨ ("//" : String) = "/") ∧
    ¬ (cleanPath "//").data.head? = some '/' := by decide

/-- C2: snapshot isolation of child scopes.  A parent router with chain ms
receives middleware A; the four kinds of child scope created at that point
(group of router, builder of router, nested group, builder of group) all
hold the chain ms ++ [A]; a later Use of B on the parent leaves every such
child chain untouched, so a route registered on the child group is wrapped
with ms ++ [A] only; the child adds C to its own chain by its own Use. -/
theorem group_snapshot_isolation (ms : List Middleware) (A B C : Middleware)
    (p q : String) (handler : Handler) (mux : ServeMux) :
    (Router.Group (Router.Use { middlewares := ms } [A]) p).middlewares
      = ms ++ [A] ∧
    (Router.Path (Router.Use { middlewares := ms } [A]) q).middlewares
      = ms ++ [A] ∧
    (RouteGroup.Group (Router.Group (Router.Use { middlewares := ms } [A]) p)
        q).middlewares = ms ++ [A] ∧
    (RouteGroup.Path (Router.Group (Router.Use { middlewares := ms } [A]) p)
        q).middlewares = ms ++ [A] ∧
    (Router.Use (Router.Use { middlewares := ms } [A]) [B]).middlewares
      = ms ++ [A] ++ [B] ∧
    RouteGroup.handle (Router.Group (Router.Use { middlewares := ms } [A]) p)
        mux "GET" q handler
      = ServeMux.Handle mux ("GET" ++ " " ++ joinPath (cleanPath p) q)
          (applyMiddlewares handler (ms ++ [A])) ∧
    (RouteGroup.Use (Router.Group (Router.Use { middlewares := ms } [A]) p)
        [C]).middlewares = ms ++ [A] ++ [C] := by
  simp [Router.Group, Router.Path, Router.Use, RouteGroup.Group,
    RouteGroup.Path, RouteGroup.Use, RouteGroup.handle, copyMiddlewares_eq]

/-- C6: the empty middleware list is the identity of composition, a fresh
router with no middleware installs the given handler itself under the GET
pattern of the cleaned path, and dispatching that method and path on the
resulting mux yields exactly that handler. -/
theorem applyMiddlewares_identity_dispatch (path : String) (handler : Handler) :
    applyMiddlewares handler [] = handler ∧
    Router.Get Router.New newMux path handler
      = some { routes := [("GET" ++ " " ++ cleanPath path, handler)] } ∧
    ServeMux.dispatch { routes := [("GET" ++ " " ++ cleanPath path, handler)] }
        "GET" (cleanPath path) = some handler := by
  refine ⟨rfl, ?_, ?_⟩
  · simp [Router.Get, Router.handle, Router.New, newMux, ServeMux.Handle,
      applyMiddlewares]
  · simp [ServeMux.dispatch]

/-- C7: every registration installs the pattern built from the method, one
space, and the effective path of the scope: the cleaned relative path for
the router, the join of the group path and the relative path for a group,
the bound base path for a builder; a nested group joins the parent path
with the given one, and a group of the router cleans the given path. -/
theorem registration_pattern_shape (router : Router) (group : RouteGroup)
    (builder : PathBuilder) (mux : ServeMux) (method p q : String)
    (handler : Handler) :
    Router.handle router mux method (cleanPath p) handler
      = ServeMux.Handle mux (method ++ " " ++ cleanPath p)
          (applyMiddlewares handler router.middlewares) ∧
    Router.Get router mux p handler
      = ServeMux.Handle mux ("GET" ++ " " ++ cleanPath p)
          (applyMiddlewares handler router.middlewares) ∧
    RouteGroup.handle group mux method p handler
      = ServeMux.Handle mux (method ++ " " ++ joinPath group.pfx p)
          (applyMiddlewares handler group.middlewares) ∧
    PathBuilder.register builder mux method handler
      = ServeMux.Handle mux (method ++ " " ++ builder.basePath)
          (applyMiddlewares handler builder.middlewares) ∧
    (RouteGroup.Group group q).pfx = joinPath group.pfx q ∧
    (Router.Group router q).pfx = cleanPath q :=
  ⟨rfl, rfl, rfl, rfl, rfl, rfl⟩

/-- C8: registering the same pattern twice in a row never succeeds (the
second registration is the fatal none outcome, never a silent overwrite),
and a registration through the router or through a builder either fails
outright or appends exactly one route carrying the fully wrapped
handler. -/
theorem duplicate_registration_fatal (mux : ServeMux) (pattern : String)
    (h1 h2 : Handler) (router : Router) (builder : PathBuilder)
    (method path : String) :
    (ServeMux.Handle mux pattern h1).bind
        (fun m2 => ServeMux.Handle m2 pattern h2) = none ∧
    (Router.handle router mux method path h1 = none ∨
     Router.handle router mux method path h1
       = some { routes := mux.routes
           ++ [(method ++ " " ++ path, applyMiddlewares h1 router.middlewares)] }) ∧
    (PathBuilder.register builder mux method h1 = none ∨
     PathBuilder.register builder mux method h1
       = some { routes := mux.routes
           ++ [(method ++ " " ++ builder.basePath,
                applyMiddlewares h1 builder.middlewares)] }) := by
  refine ⟨?_, ?_, ?_⟩
  · by_cases hdup : mux.routes.any (fun rt => rt.1 = pattern) = true
    · simp [ServeMux.Handle, hdup]
    · simp [ServeMux.Handle, hdup]
  · by_cases hdup : mux.routes.any (fun rt => rt.1 = method ++ " " ++ path) = true
    · exact Or.inl (by simp [Router.handle, ServeMux.Handle, hdup])
    · exact Or.inr (by simp [Router.handle, ServeMux.Handle, hdup])
  · by_cases hdup :
      mux.routes.any (fun rt => rt.1 = method ++ " " ++ builder.basePath) = true
    · exact Or.inl (by simp [PathBuilder.register, ServeMux.Handle, hdup])
    · exact Or.inr (by simp [PathBuilder.register, ServeMux.Handle, hdup])

lemma get_pattern_ne_post_pattern (bp : String) :
    "GET " ++ bp ≠ "POST " ++ bp := by
  intro h
  apply_fun String.length at h
  rw [String.length_append, String.length_append] at h
  have h4 : ("GET " : String).length = 4 := by decide
  have h5 : ("POST " : String).length = 5 := by decide
  rw [h4, h5] at h
  omega

/-- C9: a builder bound to a base path registers GET and POST as two
routes under the two distinct patterns built from the two methods; the
fluent methods return the same builder; dispatching GET on the resulting
mux yields the handler registered for GET and dispatching POST yields the
handler registered for POST. -/
theorem pathBuilder_method_routes (bp : String) (ms : List Middleware)
    (hG hP : Handler) (mux : ServeMux) :
    (PathBuilder.Get { basePath := bp, middlewares := ms } mux hG).1
      = { basePath := bp, middlewares := ms } ∧
    (PathBuilder.Post { basePath := bp, middlewares := ms } mux hP).1
      = { basePath := bp, middlewares := ms } ∧
    "GET" ++ " " ++ bp ≠ "POST" ++ " " ++ bp ∧
    PathBuilder.register { basePath := bp, middlewares := ms } newMux "GET" hG
      = some { routes := [("GET" ++ " " ++ bp, applyMiddlewares hG ms)] } ∧
    PathBuilder.register { basePath := bp, middlewares := ms }
        { routes := [("GET" ++ " " ++ bp, applyMiddlewares hG ms)] } "POST" hP
      = some { routes := [("GET" ++ " " ++ bp, applyMiddlewares hG ms),
                          ("POST" ++ " " ++ bp, applyMiddlewares hP ms)] } ∧
    ServeMux.dispatch
        { routes := [("GET" ++ " " ++ bp, applyMiddlewares hG ms),
                     ("POST" ++ " " ++ bp, applyMiddlewares hP ms)] }
        "GET" bp = some (applyMiddlewares hG ms) ∧
    ServeMux.dispatch
        { routes := [("GET" ++ " " ++ bp, applyMiddlewares hG ms),
                     ("POST" ++ " " ++ bp, applyMiddlewares hP ms)] }
        "POST" bp = some (applyMiddlewares hP ms) := by
  refine ⟨rfl, rfl, get_pattern_ne_post_pattern bp, ?_, ?_, ?_, ?_⟩
  · simp [PathBuilder.register, ServeMux.Handle, newMux]
  · simp [PathBuilder.register, ServeMux.Handle, get_pattern_ne_post_pattern bp]
  · simp [ServeMux.dispatch]
  · simp [ServeMux.dispatch, get_pattern_ne_post_pattern bp]
